import Mathlib

/-!
# Azure VM data-classification plugin: embedding of `main.go`

The plugin has two entry points, `Evaluate` (inventory of virtual machines)
and `Execute` (tag check of one machine), and one pure helper,
`extractResourceGroupAndVMName`.  Both entry points are sequences of calls to
external collaborators (YAML decoder, process environment, Azure identity and
compute SDK, wall clock, UUID generator) with an early `return nil, err` after
each fallible one.

The embedding threads an explicit run state through the code.  Every call that
reads or changes the outside world (log, environment, identity and compute
SDK, clock, UUID generator) appends one `Event`, the call together with what
it returned, to the trace, so that "this call was never made" and "this value
was read before that call" are statements about the trace.  The YAML decoder
and the formatting of instants are pure functions and leave no event.  Go's `(result, error)` pair, which
in this file is always either `(nil, err)` or `(&result, nil)`, is an
`Except String _` whose error carries the formatted message.
-/

namespace AzurePlugin

/-! ## Library: `strings.Split` for a one-byte separator -/

/-- Cut a character sequence at every occurrence of `sep`: the segments
between separators, in order, empty ones included.  There is always one more
segment than there are separators. -/
def splitChars (sep : Char) : List Char → List (List Char)
  | [] => [[]]
  | c :: cs =>
    if c = sep then [] :: splitChars sep cs
    else
      match splitChars sep cs with
      | [] => [[c]]
      | p :: ps => (c :: p) :: ps

end AzurePlugin

namespace strings

/-- Go's `strings.Split(s, sep)` for a separator of one ASCII byte.  Go splits
the byte sequence; the byte of an ASCII character never occurs inside a
multi-byte UTF-8 sequence, so splitting the characters gives the same
segments. -/
def Split (s : String) (sep : Char) : List String :=
  (AzurePlugin.splitChars sep s.data).map String.mk

end strings

namespace AzurePlugin

/-- The helper `extractResourceGroupAndVMName` of `main.go`: split on `/`,
reject fewer than 9 parts, otherwise return parts 4 and 8. -/
def extractResourceGroupAndVMName (vmID : String) : Except String (String × String) :=
  let parts := strings.Split vmID '/'
  if h : parts.length < 9 then
    .error "invalid VM ID format"
  else
    .ok (parts.get ⟨4, by omega⟩, parts.get ⟨8, by omega⟩)

/-! ## Data model

The records of the host runtime's `provider` package and of the Azure SDK,
restricted to the fields `main.go` reads or writes.  A Go `map[string]T` is an
association list looked up by key. -/

/-- An instant of the wall clock. -/
abbrev Time := Nat

/-- The type `AzureCliConfig` of `main.go`. -/
structure AzureCliConfig where
  SubscriptionId : String
  ClientId : String
  TenantId : String
  deriving DecidableEq, Repr

/-- The host's `SubjectType` enumeration.  The plugin only ever writes
`INVENTORY_ITEM`; the other constructor stands for the remaining members. -/
inductive SubjectType where
  | COMPONENT
  | INVENTORY_ITEM
  deriving DecidableEq, Repr

/-- The host's `ExecutionStatus` enumeration.  The plugin only ever writes
`SUCCESS`; the other constructor stands for the remaining members. -/
inductive ExecutionStatus where
  | SUCCESS
  | FAILURE
  deriving DecidableEq, Repr

structure Subject where
  Id : String
  Type_ : SubjectType
  Title : String
  Props : List (String × String)
  deriving DecidableEq, Repr

/-- A link of an observation.  The plugin only ever writes the empty list of
links, so the content of a link is left as one string. -/
structure Link where
  Href : String
  deriving DecidableEq, Repr

structure Property where
  Name : String
  Value : String
  deriving DecidableEq, Repr

structure Evidence where
  Description : String
  deriving DecidableEq, Repr

structure Observation where
  Id : String
  Title : String
  Description : String
  Collected : String
  Expires : String
  Links : List Link
  Props : List Property
  RelevantEvidence : List Evidence
  Remarks : String
  deriving DecidableEq, Repr

structure Finding where
  Id : String
  Title : String
  Description : String
  Remarks : String
  RelatedObservations : List String
  deriving DecidableEq, Repr

structure LogEntry where
  Title : String
  Description : String
  Start : String
  End : String
  deriving DecidableEq, Repr

structure EvaluateInput where
  Configuration : List (String × String)
  deriving DecidableEq, Repr

structure EvaluateResult where
  Subjects : List Subject
  deriving DecidableEq, Repr

structure ExecuteInput where
  Configuration : List (String × String)
  Subject : Subject
  deriving DecidableEq, Repr

structure ExecuteResult where
  Status : ExecutionStatus
  Observations : List Observation
  Findings : List Finding
  Logs : List LogEntry
  deriving DecidableEq, Repr

/-- How a credential object was obtained. -/
inductive Credential where
  | defaultAzure
  | clientSecret (tenantId clientId clientSecret : String)
  deriving DecidableEq, Repr

/-- The compute client: the subscription and credential it was built from. -/
structure VirtualMachinesClient where
  subscriptionID : String
  credential : Credential
  deriving DecidableEq, Repr

/-- The fields of an `armcompute.VirtualMachine` the plugin reads: `ID`, which
the plugin dereferences unconditionally, and `Tags`, a `map[string]*string`. -/
structure VirtualMachine where
  ID : String
  Tags : List (String × Option String)
  deriving DecidableEq, Repr

/-- Go's two-result map index `v, ok := m[k]`: the zero value and `false` when
the key is absent. -/
def mapIndex (m : List (String × String)) (k : String) : String × Bool :=
  match m.lookup k with
  | some v => (v, true)
  | none => ("", false)

/-! ## External collaborators -/

/-- Everything outside `main.go` that a run depends on. -/
structure World where
  /-- The function `yaml.Unmarshal` into an `AzureCliConfig`. -/
  yamlUnmarshal : String → Except String AzureCliConfig
  /-- The function `os.Getenv`: the empty string for an unset variable. -/
  getenv : String → String
  /-- The error of `azidentity.NewDefaultAzureCredential`, if it fails. -/
  defaultCredentialError : Option String
  /-- The error of `azidentity.NewClientSecretCredential`, if it fails. -/
  clientSecretCredentialError : (tenantId clientId clientSecret : String) → Option String
  /-- The error of `armcompute.NewVirtualMachinesClient`, if it fails. -/
  vmClientError : (subscriptionId : String) → Credential → Option String
  /-- The page responses the list-all pager yields, in order, until the
  provider signals that there are no further pages. -/
  listAllPages : VirtualMachinesClient → List (Except String (List VirtualMachine))
  /-- The response of `vmClient.Get`. -/
  vmGet : VirtualMachinesClient → (resourceGroup vmName : String) → Except String VirtualMachine
  /-- The instant returned by the n-th call of `time.Now`. -/
  clock : Nat → Time
  /-- The method `Time.AddDate`. -/
  addDate : Time → (years months days : Int) → Time
  /-- The method `Time.Format(time.RFC3339)`. -/
  formatRFC3339 : Time → String
  /-- The string of the n-th call of `uuid.New`. -/
  uuid : Nat → String

instance {ε α : Type} [DecidableEq ε] [DecidableEq α] : DecidableEq (Except ε α)
  | .ok a, .ok b =>
    if h : a = b then isTrue (by rw [h]) else isFalse (fun h1 => h (Except.ok.inj h1))
  | .error a, .error b =>
    if h : a = b then isTrue (by rw [h]) else isFalse (fun h1 => h (Except.error.inj h1))
  | .ok _, .error _ => isFalse (fun h => Except.noConfusion h)
  | .error _, .ok _ => isFalse (fun h => Except.noConfusion h)

/-- One call to a collaborator with what it returned. -/
inductive Event where
  | logPrintf (msg : String)
  | getenv (name value : String)
  | newDefaultAzureCredential (err : Option String)
  | newClientSecretCredential (tenantId clientId clientSecret : String) (err : Option String)
  | newVirtualMachinesClient (subscriptionId : String) (cred : Credential) (err : Option String)
  | nextPage (res : Except String (List VirtualMachine))
  | vmGet (resourceGroup vmName : String) (res : Except String VirtualMachine)
  | timeNow (t : Time)
  | uuidNew (id : String)
  deriving DecidableEq

/-- The state threaded through a run: the calls made so far, oldest first, and
how many clock readings and UUIDs have been drawn. -/
structure RunState where
  trace : List Event
  clockReads : Nat
  uuidReads : Nat
  deriving DecidableEq

/-- The state at entry. -/
def RunState.init : RunState := ⟨[], 0, 0⟩

/-- A computation that may fail with an error message; the state reached is
kept on failure, so the trace of an aborted run is observable. -/
def Run (α : Type) : Type := RunState → Except String α × RunState

/-- Bind of `Run`: the first error ends the run. -/
def Run.bind {α β : Type} (m : Run α) (f : α → Run β) : Run β := fun s =>
  match m s with
  | (.ok a, s1) => f a s1
  | (.error e, s1) => (.error e, s1)

instance : Monad Run where
  pure a := fun s => (.ok a, s)
  bind := Run.bind

/-- The statement `return nil, fmt.Errorf(msg)`. -/
def fail {α : Type} (msg : String) : Run α := fun s => (.error msg, s)

/-- The statement `if cond { return nil, fmt.Errorf(msg) }`. -/
def returnErrIf (cond : Bool) (msg : String) : Run Unit :=
  if cond then fail msg else pure ()

/-- The statement `if err != nil { return nil, fmt.Errorf(context + "%v" + suffix, err) }`
after a call that returned `res`; on success the run continues with the value. -/
def checkErr {α : Type} (res : Except String α) (context : String) (suffix : String) : Run α :=
  match res with
  | .error err => fail (context ++ err ++ suffix)
  | .ok a => pure a

/-- Append one event to the trace. -/
def emit (e : Event) : Run Unit := fun s => (.ok (), { s with trace := s.trace ++ [e] })

/-- The call `time.Now()`. -/
def timeNow (w : World) : Run Time := fun s =>
  (.ok (w.clock s.clockReads),
    { s with trace := s.trace ++ [.timeNow (w.clock s.clockReads)],
             clockReads := s.clockReads + 1 })

/-- The call `uuid.New().String()`. -/
def uuidNew (w : World) : Run String := fun s =>
  (.ok (w.uuid s.uuidReads),
    { s with trace := s.trace ++ [.uuidNew (w.uuid s.uuidReads)],
             uuidReads := s.uuidReads + 1 })

/-- The call `os.Getenv(name)`. -/
def getenv (w : World) (name : String) : Run String := do
  emit (.getenv name (w.getenv name))
  pure (w.getenv name)

/-- The call `azidentity.NewDefaultAzureCredential(nil)`. -/
def newDefaultAzureCredential (w : World) : Run (Except String Credential) := do
  emit (.newDefaultAzureCredential w.defaultCredentialError)
  match w.defaultCredentialError with
  | some err => pure (.error err)
  | none => pure (.ok .defaultAzure)

/-- The call `azidentity.NewClientSecretCredential(tenantId, clientId, clientSecret, nil)`. -/
def newClientSecretCredential (w : World) (tenantId clientId clientSecret : String) :
    Run (Except String Credential) := do
  emit (.newClientSecretCredential tenantId clientId clientSecret
    (w.clientSecretCredentialError tenantId clientId clientSecret))
  match w.clientSecretCredentialError tenantId clientId clientSecret with
  | some err => pure (.error err)
  | none => pure (.ok (.clientSecret tenantId clientId clientSecret))

/-- The call `armcompute.NewVirtualMachinesClient(subscriptionId, cred, nil)`. -/
def newVirtualMachinesClient (w : World) (subscriptionId : String) (cred : Credential) :
    Run (Except String VirtualMachinesClient) := do
  emit (.newVirtualMachinesClient subscriptionId cred (w.vmClientError subscriptionId cred))
  match w.vmClientError subscriptionId cred with
  | some err => pure (.error err)
  | none => pure (.ok ⟨subscriptionId, cred⟩)

/-- The call `vmClient.Get(ctx, resourceGroup, vmName, nil)`. -/
def vmClientGet (w : World) (vmClient : VirtualMachinesClient) (resourceGroup vmName : String) :
    Run (Except String VirtualMachine) := do
  emit (.vmGet resourceGroup vmName (w.vmGet vmClient resourceGroup vmName))
  pure (w.vmGet vmClient resourceGroup vmName)

/-! ## The plugin -/

/-- The loop `for pager.More() { page, err := pager.NextPage(ctx); ... }` of
`Evaluate`, run over the page responses still to come: `pager.More()` holds
while a response is left, every identifier of a page is appended to `vmIds`,
and a failed page ends the run.  A run that returns has consumed finitely many
pages, so a finite list covers every run that returns. -/
def listAllLoop : List (Except String (List VirtualMachine)) → List String → Run (List String)
  | [], vmIds => pure vmIds
  | res :: rest, vmIds => do
    emit (.nextPage res)
    let page ← checkErr res "failed to get next page of VMs: " ""
    listAllLoop rest (page.foldl (fun vmIds vm => vmIds ++ [vm.ID]) vmIds)

/-- The Subject `Evaluate` builds for one VM identifier. -/
def subjectOf (vmId : String) : Subject :=
  { Id := vmId
    Type_ := .INVENTORY_ITEM
    Title := "Azure Virtual Machine " ++ vmId
    Props := [("id", vmId)] }

/-- The method `AzureCliProvider.Evaluate` of `main.go`. -/
def Evaluate (w : World) (input : EvaluateInput) : Run EvaluateResult := do
  let (yamlString, ok) := mapIndex input.Configuration "yaml"
  returnErrIf (!ok) "yaml parameter is missing"
  let azure_cli_config ← checkErr (w.yamlUnmarshal yamlString) "Error unmarshalling YAML: " "\n"
  emit (.logPrintf ("yamlString: " ++ yamlString))
  let subscriptionId := azure_cli_config.SubscriptionId
  let clientId := azure_cli_config.ClientId
  let tenantId := azure_cli_config.TenantId
  let clientSecret ← getenv w "AZURE_CLIENT_SECRET"
  returnErrIf (clientId == "" || clientSecret == "" || tenantId == "")
    "One or more environment variables are not set"
  returnErrIf (!ok) "subscriptionId parameter is missing"
  let cred ← checkErr (← newDefaultAzureCredential w) "failed to obtain a credential: " ""
  let vmClient ← checkErr (← newVirtualMachinesClient w subscriptionId cred)
    "failed to create virtual machines client: " ""
  let vmIds ← listAllLoop (w.listAllPages vmClient) []
  let subjects := vmIds.foldl (fun subjects vmId => subjects ++ [subjectOf vmId]) []
  pure { Subjects := subjects }

/-- The method `AzureCliProvider.Execute` of `main.go`. -/
def Execute (w : World) (input : ExecuteInput) : Run ExecuteResult := do
  let (yamlString, ok) := mapIndex input.Configuration "yaml"
  returnErrIf (!ok) "yaml parameter is missing"
  let azure_cli_config ← checkErr (w.yamlUnmarshal yamlString) "Error unmarshalling YAML: " "\n"
  emit (.logPrintf ("yamlString: " ++ yamlString))
  let subscriptionId := azure_cli_config.SubscriptionId
  let clientId := azure_cli_config.ClientId
  let tenantId := azure_cli_config.TenantId
  let clientSecret ← getenv w "AZURE_CLIENT_SECRET"
  returnErrIf (clientId == "" || clientSecret == "" || tenantId == "")
    "One or more environment variables are not set"
  returnErrIf (!ok) "subscriptionId parameter is missing"
  let cred ← checkErr (← newClientSecretCredential w tenantId clientId clientSecret)
    "failed to obtain a credential: " ""
  let vmClient ← checkErr (← newVirtualMachinesClient w subscriptionId cred)
    "failed to create virtual machines client: " ""
  let (vmId, ok) := mapIndex input.Subject.Props "id"
  returnErrIf (!ok) "Vm Id is missing in subject properties"
  let start_time := w.formatRFC3339 (← timeNow w)
  let (resourceGroup, vmName) ← checkErr (extractResourceGroupAndVMName vmId)
    "failed to extract resource group and VM name: " ""
  let vm ← checkErr (← vmClientGet w vmClient resourceGroup vmName)
    "failed to get virtual machine: " ""
  let tags := vm.Tags
  let observations : List Observation := []
  let findings : List Finding := []
  let hasTag := (tags.lookup "dataclassification").isSome
  let obs_id ← uuidNew w
  let (observations, findings) ←
    if !hasTag then do
      let obs : Observation :=
        { Id := obs_id
          Title := "Missing Data Classification Tag"
          Description := "The virtual machine " ++ vmId ++
            " does not have a 'dataclassification' tag."
          Collected := w.formatRFC3339 (← timeNow w)
          Expires := w.formatRFC3339 (w.addDate (← timeNow w) 0 1 0)
          Links := []
          Props := [{ Name := "VmId", Value := vmId }]
          RelevantEvidence :=
            [{ Description :=
                "az cli command did not find any 'dataclassification' tag for the vm " ++ vmId }]
          Remarks := "The 'dataclassification' tag is required for compliance." }
      let fndngs : Finding :=
        { Id := (← uuidNew w)
          Title := "Missing Data Classification Tag"
          Description := "The virtual machine " ++ vmId ++
            " does not have a 'dataclassification' tag."
          Remarks := "Give the virtual machine " ++ vmId ++ " a 'dataclassification' tag."
          RelatedObservations := [obs_id] }
      pure (observations ++ [obs], findings ++ [fndngs])
    else do
      let obs : Observation :=
        { Id := obs_id
          Title := "Data Classification Tag Present"
          Description := "The virtual machine " ++ vmId ++ " has a 'dataclassification' tag."
          Collected := w.formatRFC3339 (← timeNow w)
          Expires := w.formatRFC3339 (← timeNow w)
          Links := []
          Props := [{ Name := "VmId", Value := vmId }]
          RelevantEvidence :=
            [{ Description :=
                "az cli command found a 'dataclassification' tag for the vm: " ++ vmId }]
          Remarks := "All OK." }
      pure (observations ++ [obs], findings)
  let logEntry : LogEntry :=
    { Title := "Data classification check"
      Description := "Data classification check has run successfully"
      Start := start_time
      End := w.formatRFC3339 (← timeNow w) }
  pure
    { Status := .SUCCESS
      Observations := observations
      Findings := findings
      Logs := [logEntry] }

/-! ## Reading a trace -/

/-- The page responses a trace records, in order. -/
def fetchedPages (trace : List Event) : List (Except String (List VirtualMachine)) :=
  trace.filterMap fun e =>
    match e with
    | .nextPage res => some res
    | _ => none

/-- The machine identifiers of one page response. -/
def pageIds : Except String (List VirtualMachine) → List String
  | .ok page => page.map (·.ID)
  | .error _ => []

/-- The machine identifiers the provider returned across all pages of a
trace, in page order. -/
def listedIds (trace : List Event) : List String :=
  ((fetchedPages trace).map pageIds).flatten

/-! ## Example worlds -/

/-- What `yaml.Unmarshal` into an `AzureCliConfig` returns on the documents the
examples use: a key of the document sets its field, a field without key keeps
the empty string.  The examples pass no other document; any other string is
treated as malformed. -/
def exampleYamlUnmarshal (s : String) : Except String AzureCliConfig :=
  if s = "subscriptionid: sub\nclientid: client\ntenantid: tenant" then
    .ok ⟨"sub", "client", "tenant"⟩
  else if s = "subscriptionid: sub\nclientid: client\ntenantid: bad tenant" then
    .ok ⟨"sub", "client", "bad tenant"⟩
  else if s = "clientid: client\ntenantid: tenant" then
    .ok ⟨"", "client", "tenant"⟩
  else if s = "subscriptionid: sub" then
    .ok ⟨"sub", "", ""⟩
  else
    .error "yaml: unmarshal errors"

/-- A world in which every collaborator succeeds: the subscription lists three
machines on two pages; the machine `vm1` carries the tag (with a nil value),
every other machine has no tags. -/
def demoWorld : World :=
  { yamlUnmarshal := exampleYamlUnmarshal
    getenv := fun name => if name = "AZURE_CLIENT_SECRET" then "secret" else ""
    defaultCredentialError := none
    clientSecretCredentialError := fun _ _ _ => none
    vmClientError := fun _ _ => none
    listAllPages := fun _ => [.ok [⟨"a", []⟩, ⟨"b", []⟩], .ok [⟨"c", []⟩]]
    vmGet := fun _ _ vmName =>
      if vmName = "vm1" then .ok ⟨"vm1", [("dataclassification", none)]⟩ else .ok ⟨vmName, []⟩
    clock := fun n => 100 + n
    addDate := fun t _ months _ => t + 30 * months.toNat
    formatRFC3339 := fun t => String.mk (List.replicate t 'T')
    uuid := fun n => String.mk (List.replicate (n + 1) 'u') }

/-- A check of the machine `vm1` of resource group `rg1`. -/
def taggedInput : ExecuteInput :=
  { Configuration := [("yaml", "subscriptionid: sub\nclientid: client\ntenantid: tenant")]
    Subject :=
      { Id := "vm1", Type_ := .INVENTORY_ITEM, Title := "vm1"
        Props := [("id",
          "/subscriptions/s/resourceGroups/rg1/providers/Microsoft.Compute/virtualMachines/vm1")] } }

/-- A check of the machine `vm2` of resource group `rg1`. -/
def untaggedInput : ExecuteInput :=
  { Configuration := [("yaml", "subscriptionid: sub\nclientid: client\ntenantid: tenant")]
    Subject :=
      { Id := "vm2", Type_ := .INVENTORY_ITEM, Title := "vm2"
        Props := [("id",
          "/subscriptions/s/resourceGroups/rg1/providers/Microsoft.Compute/virtualMachines/vm2")] } }

/-- A world whose client-secret credential constructor rejects the tenant id
`bad tenant`, as the identity library does for a tenant id with characters
outside letters, digits, `.` and `-`. -/
def strictTenantWorld : World :=
  { demoWorld with
    clientSecretCredentialError := fun tenantId _ _ =>
      if tenantId = "bad tenant" then some "invalid tenantID" else none }

/-- A check of a subject whose resource id has three segments. -/
def shortIdInput : ExecuteInput :=
  { Configuration := [("yaml", "subscriptionid: sub\nclientid: client\ntenantid: tenant")]
    Subject :=
      { Id := "x", Type_ := .INVENTORY_ITEM, Title := "x", Props := [("id", "rg1/vm1/x")] } }

/-- A check, with the tenant id `bad tenant`, of a subject whose resource id has
three segments. -/
def badTenantInput : ExecuteInput :=
  { Configuration := [("yaml", "subscriptionid: sub\nclientid: client\ntenantid: bad tenant")]
    Subject :=
      { Id := "x", Type_ := .INVENTORY_ITEM, Title := "x", Props := [("id", "rg1/vm1/x")] } }

/-- A world like `demoWorld` whose environment has no client secret. -/
def noSecretWorld : World := { demoWorld with getenv := fun _ => "" }

/-- An inventory request. -/
def inventoryInput : EvaluateInput :=
  { Configuration := [("yaml", "subscriptionid: sub\nclientid: client\ntenantid: tenant")] }

/-- A world whose second page of the listing fails after a first page with one
machine. -/
def failingPageWorld : World :=
  { demoWorld with
    listAllPages := fun _ => [.ok [⟨"a", []⟩], .error "timeout", .ok [⟨"c", []⟩]] }

/-- A world whose listing returns the same machine identifier on two pages. -/
def duplicateWorld : World :=
  { demoWorld with listAllPages := fun _ => [.ok [⟨"a", []⟩], .ok [⟨"a", []⟩]] }

/-- A world whose listing for a client without subscription id fails on the
first page, as the compute SDK does when it builds the request. -/
def emptySubscriptionWorld : World :=
  { demoWorld with
    listAllPages := fun vmClient =>
      if vmClient.subscriptionID = "" then
        [.error "parameter client.subscriptionID cannot be empty"]
      else [] }

/-- An inventory request whose YAML document has no `subscriptionid` key. -/
def noSubscriptionInput : EvaluateInput :=
  { Configuration := [("yaml", "clientid: client\ntenantid: tenant")] }

/-! # Theorems

## Symbolic execution of `Run` programs

Each collaborator call followed by the rest of the program is rewritten to the
rest of the program applied to the value returned and the extended state. -/

theorem bind_run {α β : Type} (m : Run α) (f : α → Run β) (s : RunState) :
    (m >>= f) s = match m s with
      | (.ok a, s1) => f a s1
      | (.error e, s1) => (.error e, s1) := rfl

theorem pure_run {α : Type} (a : α) (s : RunState) : (pure a : Run α) s = (.ok a, s) := rfl

theorem pure_bind_run {α β : Type} (a : α) (f : α → Run β) (s : RunState) :
    ((pure a : Run α) >>= f) s = f a s := rfl

theorem fail_run {α : Type} (msg : String) (s : RunState) :
    (fail msg : Run α) s = (.error msg, s) := rfl

theorem emit_bind_run {β : Type} (e : Event) (f : Unit → Run β) (s : RunState) :
    (emit e >>= f) s = f () { s with trace := s.trace ++ [e] } := rfl

theorem returnErrIf_bind_run {β : Type} (c : Bool) (msg : String) (f : Unit → Run β)
    (s : RunState) :
    (returnErrIf c msg >>= f) s = if c then (.error msg, s) else f () s := by
  cases c <;> rfl

theorem checkErr_bind_run {α β : Type} (res : Except String α) (ctx sfx : String)
    (f : α → Run β) (s : RunState) :
    (checkErr res ctx sfx >>= f) s =
      match res with
      | .error err => (.error (ctx ++ err ++ sfx), s)
      | .ok a => f a s := by
  cases res <;> rfl

theorem timeNow_bind_run {β : Type} (w : World) (f : Time → Run β) (s : RunState) :
    (timeNow w >>= f) s = f (w.clock s.clockReads)
      { s with trace := s.trace ++ [.timeNow (w.clock s.clockReads)],
               clockReads := s.clockReads + 1 } := rfl

theorem uuidNew_bind_run {β : Type} (w : World) (f : String → Run β) (s : RunState) :
    (uuidNew w >>= f) s = f (w.uuid s.uuidReads)
      { s with trace := s.trace ++ [.uuidNew (w.uuid s.uuidReads)],
               uuidReads := s.uuidReads + 1 } := rfl

theorem getenv_bind_run {β : Type} (w : World) (name : String) (f : String → Run β)
    (s : RunState) :
    (getenv w name >>= f) s =
      f (w.getenv name) { s with trace := s.trace ++ [.getenv name (w.getenv name)] } := rfl

theorem newClientSecretCredential_bind_run {β : Type} (w : World) (t c k : String)
    (f : Except String Credential → Run β) (s : RunState) :
    (newClientSecretCredential w t c k >>= f) s =
      f (match w.clientSecretCredentialError t c k with
          | some err => .error err
          | none => .ok (.clientSecret t c k))
        { s with trace := s.trace ++
            [.newClientSecretCredential t c k (w.clientSecretCredentialError t c k)] } := by
  simp only [newClientSecretCredential, bind_run, emit]
  cases w.clientSecretCredentialError t c k <;> rfl

theorem newDefaultAzureCredential_bind_run {β : Type} (w : World)
    (f : Except String Credential → Run β) (s : RunState) :
    (newDefaultAzureCredential w >>= f) s =
      f (match w.defaultCredentialError with
          | some err => .error err
          | none => .ok .defaultAzure)
        { s with trace := s.trace ++
            [.newDefaultAzureCredential w.defaultCredentialError] } := by
  simp only [newDefaultAzureCredential, bind_run, emit]
  cases w.defaultCredentialError <;> rfl

theorem newVirtualMachinesClient_bind_run {β : Type} (w : World) (sub : String)
    (cred : Credential) (f : Except String VirtualMachinesClient → Run β) (s : RunState) :
    (newVirtualMachinesClient w sub cred >>= f) s =
      f (match w.vmClientError sub cred with
          | some err => .error err
          | none => .ok ⟨sub, cred⟩)
        { s with trace := s.trace ++
            [.newVirtualMachinesClient sub cred (w.vmClientError sub cred)] } := by
  simp only [newVirtualMachinesClient, bind_run, emit]
  cases w.vmClientError sub cred <;> rfl

theorem vmClientGet_bind_run {β : Type} (w : World) (c : VirtualMachinesClient)
    (rg nm : String) (f : Except String VirtualMachine → Run β) (s : RunState) :
    (vmClientGet w c rg nm >>= f) s =
      f (w.vmGet c rg nm) { s with trace := s.trace ++ [.vmGet rg nm (w.vmGet c rg nm)] } := rfl

theorem ite_run {α : Type} (c : Prop) [Decidable c] (m1 m2 : Run α) (s : RunState) :
    (if c then m1 else m2) s = if c then m1 s else m2 s := by
  split <;> rfl

theorem mapIndex_snd_true {m : List (String × String)} {k : String}
    (h : ((mapIndex m k).2 = true)) : m.lookup k = some (mapIndex m k).1 := by
  unfold mapIndex at h ⊢
  cases hm : m.lookup k <;> simp_all

/-! ## Successful checks -/

theorem Execute_ok_inv {w : World} {input : ExecuteInput} {r : ExecuteResult} {s : RunState}
    (h : Execute w input .init = (.ok r, s)) :
    ∃ y cfg vmId rg nm vm,
      input.Configuration.lookup "yaml" = some y ∧
      w.yamlUnmarshal y = .ok cfg ∧
      input.Subject.Props.lookup "id" = some vmId ∧
      extractResourceGroupAndVMName vmId = .ok (rg, nm) ∧
      w.vmGet ⟨cfg.SubscriptionId,
        .clientSecret cfg.TenantId cfg.ClientId (w.getenv "AZURE_CLIENT_SECRET")⟩ rg nm = .ok vm ∧
      s.trace =
        [.logPrintf ("yamlString: " ++ y),
         .getenv "AZURE_CLIENT_SECRET" (w.getenv "AZURE_CLIENT_SECRET"),
         .newClientSecretCredential cfg.TenantId cfg.ClientId (w.getenv "AZURE_CLIENT_SECRET") none,
         .newVirtualMachinesClient cfg.SubscriptionId
           (.clientSecret cfg.TenantId cfg.ClientId (w.getenv "AZURE_CLIENT_SECRET")) none,
         .timeNow (w.clock 0),
         .vmGet rg nm (.ok vm),
         .uuidNew (w.uuid 0),
         .timeNow (w.clock 1),
         .timeNow (w.clock 2)] ++
        (if (vm.Tags.lookup "dataclassification").isSome then [] else [.uuidNew (w.uuid 1)]) ++
        [.timeNow (w.clock 3)] ∧
      r.Status = .SUCCESS ∧
      r.Logs = [⟨"Data classification check", "Data classification check has run successfully",
        w.formatRFC3339 (w.clock 0), w.formatRFC3339 (w.clock 3)⟩] ∧
      (∃ o, r.Observations = [o] ∧ o.Id = w.uuid 0 ∧
        o.Collected = w.formatRFC3339 (w.clock 1) ∧
        o.Title = (if (vm.Tags.lookup "dataclassification").isSome
          then "Data Classification Tag Present" else "Missing Data Classification Tag")) ∧
      ((vm.Tags.lookup "dataclassification").isSome = true → r.Findings = []) ∧
      ((vm.Tags.lookup "dataclassification").isSome = false →
        ∃ f, r.Findings = [f] ∧ f.RelatedObservations = [w.uuid 0]) := by
  simp only [Execute, returnErrIf_bind_run, checkErr_bind_run, emit_bind_run, timeNow_bind_run,
    uuidNew_bind_run, getenv_bind_run, newClientSecretCredential_bind_run,
    newVirtualMachinesClient_bind_run, vmClientGet_bind_run, pure_run, pure_bind_run, ite_run,
    RunState.init] at h
  split at h
  · simp at h
  rename_i hy
  split at h
  · simp at h
  rename_i cfg hcfg
  split at h
  · simp at h
  rename_i henv
  split at h
  · simp at h
  rename_i cred hcred
  split at h
  · simp at h
  rename_i client hclient
  split at h
  · simp at h
  rename_i hid
  split at h
  · simp at h
  rename_i rgnm hrgnm
  split at h
  · simp at h
  rename_i vm hvm
  have hy1 := mapIndex_snd_true (by simpa using hy)
  have hid1 := mapIndex_snd_true (by simpa using hid)
  cases hce : w.clientSecretCredentialError cfg.TenantId cfg.ClientId
      (w.getenv "AZURE_CLIENT_SECRET") with
  | some e => simp [hce] at hcred
  | none =>
    simp only [hce, Except.ok.injEq] at hcred
    subst hcred
    cases hve : w.vmClientError cfg.SubscriptionId
        (.clientSecret cfg.TenantId cfg.ClientId (w.getenv "AZURE_CLIENT_SECRET")) with
    | some e => simp [hve] at hclient
    | none =>
      simp only [hve, Except.ok.injEq] at hclient
      subst hclient
      refine ⟨_, cfg, _, rgnm.1, rgnm.2, vm, hy1, hcfg, hid1, hrgnm, hvm, ?_⟩
      split at h
      · rename_i htag
        simp only [List.nil_append, List.cons_append, Prod.mk.injEq, Except.ok.injEq,
          Nat.zero_add, Nat.reduceAdd] at h
        obtain ⟨rfl, rfl⟩ := h
        simp only [Bool.not_eq_true'] at htag
        simp [htag, hce, hve, hvm]
      · rename_i htag
        simp only [List.nil_append, List.cons_append, Prod.mk.injEq, Except.ok.injEq,
          Nat.zero_add, Nat.reduceAdd] at h
        obtain ⟨rfl, rfl⟩ := h
        simp only [Bool.not_eq_true', Bool.not_eq_false] at htag
        simp [htag, hce, hve, hvm]

theorem lookup_isSome_iff {β : Type} (k : String) (l : List (String × β)) :
    (l.lookup k).isSome = true ↔ k ∈ l.map Prod.fst := by
  induction l with
  | nil => simp
  | cons p ps ih =>
    obtain ⟨a, b⟩ := p
    by_cases hk : k = a
    · subst hk
      simp [List.lookup]
    · have hb : (k == a) = false := by simpa using hk
      simp [List.lookup, hb, ih, hk]

/-- The only `vmGet` event of a successful check is the one recorded in its trace. -/
theorem vmGet_unique {w : World} {input : ExecuteInput} {r : ExecuteResult} {s : RunState}
    (h : Execute w input .init = (.ok r, s)) {rg nm : String} {vm : VirtualMachine}
    (hget : Event.vmGet rg nm (.ok vm) ∈ s.trace) :
    ∃ o, r.Observations = [o] ∧ o.Id = w.uuid 0 ∧
      o.Title = (if (vm.Tags.lookup "dataclassification").isSome
        then "Data Classification Tag Present" else "Missing Data Classification Tag") ∧
      ((vm.Tags.lookup "dataclassification").isSome = true → r.Findings = []) ∧
      ((vm.Tags.lookup "dataclassification").isSome = false →
        ∃ f, r.Findings = [f] ∧ f.RelatedObservations = [w.uuid 0]) := by
  obtain ⟨y, cfg, vmId, rg1, nm1, vm1, -, -, -, -, -, htr, -, -, ⟨o, ho, hid, -, htitle⟩, hp, hm⟩ :=
    Execute_ok_inv h
  rw [htr] at hget
  have hvm : vm = vm1 := by
    split at hget <;> simp at hget <;> exact hget.2.2
  subst hvm
  exact ⟨o, ho, hid, htitle, hp, hm⟩

/-- Claim C1.  In a successful check whose fetched machine has no tag with key
`dataclassification`, the result holds exactly one observation and exactly one
finding, and the finding's related observations contain the observation's id. -/
theorem Execute_tag_absent (w : World) (input : ExecuteInput) (r : ExecuteResult)
    (s : RunState) (rg nm : String) (vm : VirtualMachine)
    (hrun : Execute w input .init = (.ok r, s))
    (hget : Event.vmGet rg nm (.ok vm) ∈ s.trace)
    (habsent : "dataclassification" ∉ vm.Tags.map Prod.fst) :
    ∃ o f, r.Observations = [o] ∧ r.Findings = [f] ∧ o.Id ∈ f.RelatedObservations := by
  obtain ⟨o, ho, hid, -, -, hm⟩ := vmGet_unique hrun hget
  have hn : (vm.Tags.lookup "dataclassification").isSome = false := by
    rw [← Bool.not_eq_true, lookup_isSome_iff]
    exact habsent
  obtain ⟨f, hf, hrel⟩ := hm hn
  exact ⟨o, f, ho, hf, by simp [hrel, hid]⟩

theorem Execute_tag_absent_witness :
    ∃ r s, Execute demoWorld untaggedInput .init = (.ok r, s) ∧
      Event.vmGet "rg1" "vm2" (.ok ⟨"vm2", []⟩) ∈ s.trace ∧
      "dataclassification" ∉ (VirtualMachine.mk "vm2" []).Tags.map Prod.fst ∧
      ∃ o f, r.Observations = [o] ∧ r.Findings = [f] ∧ o.Id ∈ f.RelatedObservations :=
  ⟨_, _, rfl, by decide, by decide,
    Execute_tag_absent demoWorld untaggedInput _ _ "rg1" "vm2" ⟨"vm2", []⟩ rfl
      (by decide) (by decide)⟩

/-- Claim C2.  In a successful check whose fetched machine has a tag with key
`dataclassification`, whatever its value, the result holds exactly one
observation, titled "Data Classification Tag Present", and no finding. -/
theorem Execute_tag_present (w : World) (input : ExecuteInput) (r : ExecuteResult)
    (s : RunState) (rg nm : String) (vm : VirtualMachine)
    (hrun : Execute w input .init = (.ok r, s))
    (hget : Event.vmGet rg nm (.ok vm) ∈ s.trace)
    (hpresent : "dataclassification" ∈ vm.Tags.map Prod.fst) :
    ∃ o, r.Observations = [o] ∧ o.Title = "Data Classification Tag Present" ∧
      r.Findings = [] := by
  obtain ⟨o, ho, -, htitle, hp, -⟩ := vmGet_unique hrun hget
  have hsome : (vm.Tags.lookup "dataclassification").isSome = true :=
    (lookup_isSome_iff _ _).2 hpresent
  rw [hsome] at htitle
  exact ⟨o, ho, by simpa using htitle, hp hsome⟩

theorem Execute_tag_present_witness :
    ∃ r s, Execute demoWorld taggedInput .init = (.ok r, s) ∧
      Event.vmGet "rg1" "vm1" (.ok ⟨"vm1", [("dataclassification", none)]⟩) ∈ s.trace ∧
      "dataclassification" ∈
        (VirtualMachine.mk "vm1" [("dataclassification", none)]).Tags.map Prod.fst ∧
      ∃ o, r.Observations = [o] ∧ o.Title = "Data Classification Tag Present" ∧
        r.Findings = [] :=
  ⟨_, _, rfl, by decide, by decide,
    Execute_tag_present demoWorld taggedInput _ _ "rg1" "vm1"
      ⟨"vm1", [("dataclassification", none)]⟩ rfl (by decide) (by decide)⟩

/-- Claim C10.  A successful check, in either branch, returns status `SUCCESS` and
exactly one log entry.  Its `Start` is the first clock reading of the run,
taken immediately before the machine is fetched; its `End` is the last clock
reading, the final call of the run, after the identifier and the collection
time of the single observation were drawn. -/
theorem Execute_log_entry (w : World) (input : ExecuteInput) (r : ExecuteResult)
    (s : RunState) (hrun : Execute w input .init = (.ok r, s)) :
    r.Status = .SUCCESS ∧
    r.Logs = [⟨"Data classification check", "Data classification check has run successfully",
      w.formatRFC3339 (w.clock 0), w.formatRFC3339 (w.clock 3)⟩] ∧
    ∃ pre mid rg nm res o tc,
      s.trace = pre ++ [.timeNow (w.clock 0), .vmGet rg nm res] ++ mid ++
        [.timeNow (w.clock 3)] ∧
      (∀ t, Event.timeNow t ∉ pre) ∧
      r.Observations = [o] ∧ Event.uuidNew o.Id ∈ mid ∧
      Event.timeNow tc ∈ mid ∧ o.Collected = w.formatRFC3339 tc := by
  obtain ⟨y, cfg, vmId, rg, nm, vm, -, -, -, -, -, htr, hst, hlogs, ⟨o, ho, hid, hcol, -⟩, -, -⟩ :=
    Execute_ok_inv hrun
  refine ⟨hst, hlogs,
    [.logPrintf ("yamlString: " ++ y),
     .getenv "AZURE_CLIENT_SECRET" (w.getenv "AZURE_CLIENT_SECRET"),
     .newClientSecretCredential cfg.TenantId cfg.ClientId (w.getenv "AZURE_CLIENT_SECRET") none,
     .newVirtualMachinesClient cfg.SubscriptionId
       (.clientSecret cfg.TenantId cfg.ClientId (w.getenv "AZURE_CLIENT_SECRET")) none],
    [.uuidNew (w.uuid 0), .timeNow (w.clock 1), .timeNow (w.clock 2)] ++
      (if (vm.Tags.lookup "dataclassification").isSome then [] else [.uuidNew (w.uuid 1)]),
    rg, nm, .ok vm, o, w.clock 1, ?_, ?_, ho, ?_, ?_, hcol⟩
  · rw [htr]
    simp
  · intro t
    simp
  · simp [hid]
  · simp

theorem Execute_log_entry_witness :
    ∃ r s, Execute demoWorld taggedInput .init = (.ok r, s) ∧
      r.Status = .SUCCESS ∧
      r.Logs = [⟨"Data classification check", "Data classification check has run successfully",
        demoWorld.formatRFC3339 (demoWorld.clock 0),
        demoWorld.formatRFC3339 (demoWorld.clock 3)⟩] :=
  ⟨_, _, rfl, (Execute_log_entry demoWorld taggedInput _ _ rfl).1,
    (Execute_log_entry demoWorld taggedInput _ _ rfl).2.1⟩

/-! ## Resource identifiers -/

theorem splitChars_ne_nil (sep : Char) (cs : List Char) : splitChars sep cs ≠ [] := by
  cases cs with
  | nil => simp [splitChars]
  | cons c cs =>
    unfold splitChars
    split
    · simp
    · split <;> simp

/-- There is one more segment than there are separators. -/
theorem splitChars_length (sep : Char) (cs : List Char) :
    (splitChars sep cs).length = cs.count sep + 1 := by
  induction cs with
  | nil => simp [splitChars]
  | cons c cs ih =>
    unfold splitChars
    by_cases hc : c = sep
    · subst hc
      simp [ih]
    · have hne : (c == sep) = false := by simpa using hc
      rw [if_neg hc, List.count_cons, hne]
      cases hsp : splitChars sep cs with
      | nil => exact absurd hsp (splitChars_ne_nil sep cs)
      | cons p ps =>
        rw [hsp] at ih
        simpa using ih

/-- No segment contains the separator. -/
theorem splitChars_no_sep (sep : Char) (cs : List Char) :
    ∀ seg ∈ splitChars sep cs, sep ∉ seg := by
  induction cs with
  | nil => simp [splitChars]
  | cons c cs ih =>
    unfold splitChars
    by_cases hc : c = sep
    · subst hc
      intro seg hseg
      rw [if_pos rfl, List.mem_cons] at hseg
      rcases hseg with rfl | hseg
      · simp
      · exact ih seg hseg
    · rw [if_neg hc]
      cases hsp : splitChars sep cs with
      | nil => exact absurd hsp (splitChars_ne_nil sep cs)
      | cons p ps =>
        rw [hsp] at ih
        intro seg hseg
        simp only [List.mem_cons] at hseg
        rcases hseg with rfl | hseg
        · have hp := ih p (List.mem_cons_self _ _)
          simp only [List.mem_cons, not_or]
          exact ⟨fun h => hc h.symm, hp⟩
        · exact ih seg (List.mem_cons_of_mem _ hseg)

/-- Putting the separator back between the segments gives the input. -/
theorem splitChars_intercalate (sep : Char) (cs : List Char) :
    [sep].intercalate (splitChars sep cs) = cs := by
  induction cs with
  | nil => simp [splitChars, List.intercalate]
  | cons c cs ih =>
    unfold splitChars
    by_cases hc : c = sep
    · subst hc
      rw [if_pos rfl]
      cases hsp : splitChars c cs with
      | nil => exact absurd hsp (splitChars_ne_nil c cs)
      | cons p ps =>
        rw [hsp] at ih
        simp only [List.intercalate, List.intersperse, List.flatten_cons, List.nil_append,
          List.singleton_append, List.cons.injEq, true_and] at ih ⊢
        exact ih
    · rw [if_neg hc]
      cases hsp : splitChars sep cs with
      | nil => exact absurd hsp (splitChars_ne_nil sep cs)
      | cons p ps =>
        rw [hsp] at ih
        cases ps with
        | nil =>
          simp only [List.intercalate, List.intersperse, List.flatten_cons, List.flatten_nil,
            List.append_nil] at ih ⊢
          rw [ih]
        | cons q qs =>
          simp only [List.intercalate, List.intersperse, List.flatten_cons, List.cons_append] at ih ⊢
          rw [ih]

/-- The number of parts `strings.Split` returns. -/
theorem Split_length (s : String) (sep : Char) :
    (strings.Split s sep).length = s.data.count sep + 1 := by
  simp [strings.Split, splitChars_length]

/-- Claim C3.  A resource id that splits on `/` into at least 9 segments is parsed
without error into the segment at index 4 (resource group) and the segment at
index 8 (VM name); the id of the example yields `rg1` and `vm1`. -/
theorem extractResourceGroupAndVMName_ok (vmID : String)
    (h : 9 ≤ (strings.Split vmID '/').length) :
    extractResourceGroupAndVMName vmID =
      .ok ((strings.Split vmID '/').get ⟨4, by omega⟩,
           (strings.Split vmID '/').get ⟨8, by omega⟩) ∧
    extractResourceGroupAndVMName
      "/subscriptions/s/resourceGroups/rg1/providers/Microsoft.Compute/virtualMachines/vm1" =
      .ok ("rg1", "vm1") := by
  refine ⟨?_, by rfl⟩
  unfold extractResourceGroupAndVMName
  simp only
  rw [dif_neg (by omega)]

theorem extractResourceGroupAndVMName_ok_witness :
    9 ≤ (strings.Split "//a/b/rg/c/d/e/vm/f" '/').length ∧
    extractResourceGroupAndVMName "//a/b/rg/c/d/e/vm/f" = .ok ("rg", "vm") :=
  ⟨by decide, (extractResourceGroupAndVMName_ok "//a/b/rg/c/d/e/vm/f" (by decide)).1.trans
    (by rfl)⟩

/-- A resource id with fewer than 9 segments is rejected. -/
theorem extractResourceGroupAndVMName_short (vmID : String)
    (h : (strings.Split vmID '/').length < 9) :
    extractResourceGroupAndVMName vmID = .error "invalid VM ID format" := by
  unfold extractResourceGroupAndVMName
  simp only
  rw [dif_pos h]

/-! ## Aborted checks -/

/-- Claim C4 as stated fails.  The configuration passes the completeness
validation and the resource id has three segments, yet the check ends with the
credential error, not with the format error: the credential is constructed
before the resource id is parsed. -/
theorem Execute_short_id_credential_error :
    badTenantInput.Configuration.lookup "yaml" =
      some "subscriptionid: sub\nclientid: client\ntenantid: bad tenant" ∧
    strictTenantWorld.yamlUnmarshal "subscriptionid: sub\nclientid: client\ntenantid: bad tenant" =
      .ok ⟨"sub", "client", "bad tenant"⟩ ∧
    strictTenantWorld.getenv "AZURE_CLIENT_SECRET" = "secret" ∧
    badTenantInput.Subject.Props.lookup "id" = some "rg1/vm1/x" ∧
    (strings.Split "rg1/vm1/x" '/').length = 3 ∧
    (Execute strictTenantWorld badTenantInput .init).1 =
      .error "failed to obtain a credential: invalid tenantID" ∧
    (Execute strictTenantWorld badTenantInput .init).1 ≠
      .error "failed to extract resource group and VM name: invalid VM ID format" := by
  refine ⟨by decide, by rfl, by decide, by decide, by decide, by rfl, by decide⟩

/-- Claim C4, amended.  When the configuration passes the completeness validation
and the subject carries a resource id that splits on `/` into fewer than 9
segments, the check fails without a result and never performs the VM get call;
when moreover the credential and the VM client are constructed without error,
the failure is the format error. -/
theorem Execute_short_id (w : World) (input : ExecuteInput) (y vmId : String)
    (cfg : AzureCliConfig)
    (hy : input.Configuration.lookup "yaml" = some y)
    (hc : w.yamlUnmarshal y = .ok cfg)
    (hclient : cfg.ClientId ≠ "") (hsecret : w.getenv "AZURE_CLIENT_SECRET" ≠ "")
    (htenant : cfg.TenantId ≠ "")
    (hid : input.Subject.Props.lookup "id" = some vmId)
    (hlen : (strings.Split vmId '/').length < 9) :
    (∃ msg, (Execute w input .init).1 = .error msg) ∧
    (∀ rg nm res, Event.vmGet rg nm res ∉ (Execute w input .init).2.trace) ∧
    (w.clientSecretCredentialError cfg.TenantId cfg.ClientId
        (w.getenv "AZURE_CLIENT_SECRET") = none →
      w.vmClientError cfg.SubscriptionId
        (.clientSecret cfg.TenantId cfg.ClientId (w.getenv "AZURE_CLIENT_SECRET")) = none →
      (Execute w input .init).1 =
        .error "failed to extract resource group and VM name: invalid VM ID format") := by
  have hb : (cfg.ClientId == "" || w.getenv "AZURE_CLIENT_SECRET" == "" ||
      cfg.TenantId == "") = false := by
    simp [hclient, hsecret, htenant]
  have hy1 : mapIndex input.Configuration "yaml" = (y, true) := by simp [mapIndex, hy]
  have hid1 : mapIndex input.Subject.Props "id" = (vmId, true) := by simp [mapIndex, hid]
  have hx := extractResourceGroupAndVMName_short vmId hlen
  simp only [Execute, returnErrIf_bind_run, checkErr_bind_run, emit_bind_run, timeNow_bind_run,
    uuidNew_bind_run, getenv_bind_run, newClientSecretCredential_bind_run,
    newVirtualMachinesClient_bind_run, vmClientGet_bind_run, pure_run, pure_bind_run, ite_run,
    RunState.init, hy1, hid1, hc, hb, hx]
  cases hce : w.clientSecretCredentialError cfg.TenantId cfg.ClientId
      (w.getenv "AZURE_CLIENT_SECRET") with
  | some e => simp
  | none =>
    cases hve : w.vmClientError cfg.SubscriptionId
        (.clientSecret cfg.TenantId cfg.ClientId (w.getenv "AZURE_CLIENT_SECRET")) with
    | some e => simp [hve]
    | none => simp [hve]

theorem Execute_short_id_witness :
    (strings.Split "rg1/vm1/x" '/').length < 9 ∧
    (∃ msg, (Execute demoWorld shortIdInput .init).1 = .error msg) ∧
    (Execute demoWorld shortIdInput .init).1 =
      .error "failed to extract resource group and VM name: invalid VM ID format" :=
  ⟨by decide,
    (Execute_short_id demoWorld shortIdInput
      "subscriptionid: sub\nclientid: client\ntenantid: tenant" "rg1/vm1/x"
      ⟨"sub", "client", "tenant"⟩ (by decide) (by rfl) (by decide) (by decide) (by decide)
      (by decide) (by decide)).1,
    (Execute_short_id demoWorld shortIdInput
      "subscriptionid: sub\nclientid: client\ntenantid: tenant" "rg1/vm1/x"
      ⟨"sub", "client", "tenant"⟩ (by decide) (by rfl) (by decide) (by decide) (by decide)
      (by decide) (by decide)).2.2 (by rfl) (by rfl)⟩

/-- Claim C5.  When the `yaml` entry decodes and the client secret of the
environment, the client id or the tenant id is empty, the check returns the
configuration error and no result, and the client-secret credential constructor
is never invoked. -/
theorem Execute_incomplete_configuration (w : World) (input : ExecuteInput) (y : String)
    (cfg : AzureCliConfig)
    (hy : input.Configuration.lookup "yaml" = some y)
    (hc : w.yamlUnmarshal y = .ok cfg)
    (h : w.getenv "AZURE_CLIENT_SECRET" = "" ∨ cfg.ClientId = "" ∨ cfg.TenantId = "") :
    (Execute w input .init).1 = .error "One or more environment variables are not set" ∧
    ∀ tenantId clientId clientSecret err,
      Event.newClientSecretCredential tenantId clientId clientSecret err ∉
        (Execute w input .init).2.trace := by
  have hb : (cfg.ClientId == "" || w.getenv "AZURE_CLIENT_SECRET" == "" ||
      cfg.TenantId == "") = true := by
    rcases h with h | h | h <;> simp [h]
  have hy1 : mapIndex input.Configuration "yaml" = (y, true) := by simp [mapIndex, hy]
  simp [Execute, returnErrIf_bind_run, checkErr_bind_run, emit_bind_run, getenv_bind_run,
    RunState.init, hy1, hc, hb]

theorem Execute_incomplete_configuration_witness :
    noSecretWorld.getenv "AZURE_CLIENT_SECRET" = "" ∧
    (Execute noSecretWorld taggedInput .init).1 =
      .error "One or more environment variables are not set" :=
  ⟨by rfl, (Execute_incomplete_configuration noSecretWorld taggedInput
    "subscriptionid: sub\nclientid: client\ntenantid: tenant"
    ⟨"sub", "client", "tenant"⟩ (by decide) (by rfl) (Or.inl (by rfl))).1⟩

/-! ## Inventory -/

theorem foldl_ids (page : List VirtualMachine) (acc : List String) :
    page.foldl (fun vmIds vm => vmIds ++ [vm.ID]) acc = acc ++ page.map (·.ID) := by
  induction page generalizing acc with
  | nil => simp
  | cons vm page ih => simp [ih]

theorem foldl_subjects (vmIds : List String) (acc : List Subject) :
    vmIds.foldl (fun subjects vmId => subjects ++ [subjectOf vmId]) acc =
      acc ++ vmIds.map subjectOf := by
  induction vmIds generalizing acc with
  | nil => simp
  | cons vmId vmIds ih => simp [ih]

/-- The pager loop either consumes every page, all of them successful, or stops
at the first failed page with its error. -/
theorem listAllLoop_spec (pages : List (Except String (List VirtualMachine))) :
    ∀ (acc : List String) (s : RunState),
      (∃ oks : List (List VirtualMachine), pages = oks.map .ok ∧
        listAllLoop pages acc s =
          (.ok (acc ++ (oks.map fun page => page.map (·.ID)).flatten),
            { s with trace := s.trace ++ oks.map fun page => .nextPage (.ok page) })) ∨
      (∃ (oks : List (List VirtualMachine)) (e : String) (rest : _),
        pages = oks.map .ok ++ .error e :: rest ∧
        listAllLoop pages acc s =
          (.error ("failed to get next page of VMs: " ++ e),
            { s with trace := s.trace ++ (oks.map fun page => .nextPage (.ok page)) ++
                [.nextPage (.error e)] })) := by
  induction pages with
  | nil =>
    intro acc s
    exact Or.inl ⟨[], rfl, by simp [listAllLoop, pure_run]⟩
  | cons res rest ih =>
    intro acc s
    cases res with
    | error e =>
      refine Or.inr ⟨[], e, rest, rfl, ?_⟩
      simp [listAllLoop, emit_bind_run, checkErr_bind_run]
    | ok page =>
      have hstep : listAllLoop (.ok page :: rest) acc s =
          listAllLoop rest (acc ++ page.map (·.ID))
            { s with trace := s.trace ++ [.nextPage (.ok page)] } := by
        simp [listAllLoop, emit_bind_run, checkErr_bind_run, foldl_ids]
      rcases ih (acc ++ page.map (·.ID)) { s with trace := s.trace ++ [.nextPage (.ok page)] }
        with ⟨oks, hp, hrun⟩ | ⟨oks, e, tl, hp, hrun⟩
      · refine Or.inl ⟨page :: oks, by simp [hp], ?_⟩
        rw [hstep, hrun]
        simp
      · refine Or.inr ⟨page :: oks, e, tl, by simp [hp], ?_⟩
        rw [hstep, hrun]
        simp

/-- The inventory either fails before the first page is requested, or runs the
pager loop, for the client of the decoded subscription id and the default
credential, from the state reached after the VM client was created. -/
theorem Evaluate_cases (w : World) (input : EvaluateInput) :
    ((∃ msg, (Evaluate w input .init).1 = .error msg) ∧
      fetchedPages (Evaluate w input .init).2.trace = []) ∨
    ∃ (y : String) (cfg : AzureCliConfig),
      input.Configuration.lookup "yaml" = some y ∧
      w.yamlUnmarshal y = .ok cfg ∧
      Evaluate w input .init =
        match listAllLoop (w.listAllPages ⟨cfg.SubscriptionId, .defaultAzure⟩) []
          ⟨[.logPrintf ("yamlString: " ++ y),
            .getenv "AZURE_CLIENT_SECRET" (w.getenv "AZURE_CLIENT_SECRET"),
            .newDefaultAzureCredential none,
            .newVirtualMachinesClient cfg.SubscriptionId .defaultAzure none], 0, 0⟩ with
        | (.ok vmIds, s1) => (.ok ⟨vmIds.map subjectOf⟩, s1)
        | (.error e, s1) => (.error e, s1) := by
  cases hY : input.Configuration.lookup "yaml" with
  | none =>
    left
    have hy1 : mapIndex input.Configuration "yaml" = ("", false) := by simp [mapIndex, hY]
    simp [Evaluate, returnErrIf_bind_run, RunState.init, hy1, fetchedPages]
  | some y =>
    have hy1 : mapIndex input.Configuration "yaml" = (y, true) := by simp [mapIndex, hY]
    cases hC : w.yamlUnmarshal y with
    | error e =>
      left
      simp [Evaluate, returnErrIf_bind_run, checkErr_bind_run, RunState.init, hy1, hC,
        fetchedPages]
    | ok cfg =>
      cases hb : (cfg.ClientId == "" || w.getenv "AZURE_CLIENT_SECRET" == "" ||
          cfg.TenantId == "") with
      | true =>
        left
        simp [Evaluate, returnErrIf_bind_run, checkErr_bind_run, emit_bind_run,
          getenv_bind_run, RunState.init, hy1, hC, hb, fetchedPages]
      | false =>
        cases hD : w.defaultCredentialError with
        | some e =>
          left
          simp [Evaluate, returnErrIf_bind_run, checkErr_bind_run, emit_bind_run,
            getenv_bind_run, newDefaultAzureCredential_bind_run, RunState.init, hy1, hC, hb,
            hD, fetchedPages]
        | none =>
          cases hV : w.vmClientError cfg.SubscriptionId .defaultAzure with
          | some e =>
            left
            simp [Evaluate, returnErrIf_bind_run, checkErr_bind_run, emit_bind_run,
              getenv_bind_run, newDefaultAzureCredential_bind_run,
              newVirtualMachinesClient_bind_run, RunState.init, hy1, hC, hb, hD, hV,
              fetchedPages]
          | none =>
            right
            refine ⟨y, cfg, rfl, hC, ?_⟩
            simp only [Evaluate, returnErrIf_bind_run, checkErr_bind_run, emit_bind_run,
              getenv_bind_run, newDefaultAzureCredential_bind_run,
              newVirtualMachinesClient_bind_run, RunState.init, hy1, hC, hb, hD, hV]
            simp only [bind_run, pure_run, foldl_subjects, List.nil_append, List.cons_append]
            generalize listAllLoop _ _ _ = x
            rcases x with ⟨_ | _, _⟩ <;> rfl

theorem mem_fetchedPages (res : Except String (List VirtualMachine)) (trace : List Event) :
    res ∈ fetchedPages trace ↔ Event.nextPage res ∈ trace := by
  unfold fetchedPages
  rw [List.mem_filterMap]
  constructor
  · rintro ⟨e, he, hres⟩
    cases e <;> simp at hres
    subst hres
    exact he
  · intro h
    exact ⟨_, h, rfl⟩

theorem fetchedPages_append (t1 t2 : List Event) :
    fetchedPages (t1 ++ t2) = fetchedPages t1 ++ fetchedPages t2 := by
  simp [fetchedPages, List.filterMap_append]

theorem fetchedPages_nextPage (pages : List (Except String (List VirtualMachine))) :
    fetchedPages (pages.map .nextPage) = pages := by
  induction pages with
  | nil => rfl
  | cons p ps ih =>
    simp only [List.map_cons]
    unfold fetchedPages at ih ⊢
    simp [List.filterMap_cons, ih]

/-- A successful inventory decoded its configuration, fetched every page the
provider yields for the client of the decoded subscription id, and built its
Subjects one by one from the listed identifiers. -/
theorem Evaluate_ok_pages {w : World} {input : EvaluateInput} {r : EvaluateResult}
    {s : RunState} (h : Evaluate w input .init = (.ok r, s)) :
    ∃ (y : String) (cfg : AzureCliConfig),
      input.Configuration.lookup "yaml" = some y ∧
      w.yamlUnmarshal y = .ok cfg ∧
      fetchedPages s.trace = w.listAllPages ⟨cfg.SubscriptionId, .defaultAzure⟩ ∧
      r.Subjects = (listedIds s.trace).map subjectOf := by
  rcases Evaluate_cases w input with ⟨⟨msg, hmsg⟩, -⟩ | ⟨y, cfg, hy, hc, hrun⟩
  · rw [h] at hmsg
    simp at hmsg
  · rw [h] at hrun
    rcases listAllLoop_spec (w.listAllPages ⟨cfg.SubscriptionId, .defaultAzure⟩) []
      ⟨[.logPrintf ("yamlString: " ++ y),
        .getenv "AZURE_CLIENT_SECRET" (w.getenv "AZURE_CLIENT_SECRET"),
        .newDefaultAzureCredential none,
        .newVirtualMachinesClient cfg.SubscriptionId .defaultAzure none], 0, 0⟩
      with ⟨oks, hp, hloop⟩ | ⟨oks, e, rest, -, hloop⟩
    · rw [hloop] at hrun
      simp only [List.nil_append, Prod.mk.injEq, Except.ok.injEq] at hrun
      obtain ⟨rfl, rfl⟩ := hrun
      have hf : fetchedPages
          ([.logPrintf ("yamlString: " ++ y),
            .getenv "AZURE_CLIENT_SECRET" (w.getenv "AZURE_CLIENT_SECRET"),
            .newDefaultAzureCredential none,
            .newVirtualMachinesClient cfg.SubscriptionId .defaultAzure none] ++
            oks.map fun page => .nextPage (.ok page)) = oks.map .ok := by
        rw [fetchedPages_append]
        have := fetchedPages_nextPage (oks.map .ok)
        simp only [List.map_map] at this
        simpa [fetchedPages] using this
      refine ⟨y, cfg, hy, hc, hf.trans hp.symm, ?_⟩
      simp only [listedIds, hf, List.map_map]
      rfl
    · rw [hloop] at hrun
      simp at hrun

/-- A successful inventory fetched every page the provider yields for the
client, and its Subjects are built one by one from the listed identifiers. -/
theorem Evaluate_ok_inv {w : World} {input : EvaluateInput} {r : EvaluateResult}
    {s : RunState} (h : Evaluate w input .init = (.ok r, s)) :
    (∃ vmClient, fetchedPages s.trace = w.listAllPages vmClient) ∧
      r.Subjects = (listedIds s.trace).map subjectOf := by
  obtain ⟨y, cfg, -, -, hf, hsub⟩ := Evaluate_ok_pages h
  exact ⟨⟨_, hf⟩, hsub⟩

/-- Claim C9.  When fetching some page of the listing fails, also after earlier
pages were fetched, the inventory returns that page's error and no result:
no Subject of the pages already fetched is returned. -/
theorem Evaluate_page_error (w : World) (input : EvaluateInput) (e : String)
    (he : Event.nextPage (.error e) ∈ (Evaluate w input .init).2.trace) :
    (Evaluate w input .init).1 = .error ("failed to get next page of VMs: " ++ e) := by
  rw [← mem_fetchedPages] at he
  rcases Evaluate_cases w input with ⟨-, hnone⟩ | ⟨y, cfg, -, -, hrun⟩
  · rw [hnone] at he
    simp at he
  · rcases listAllLoop_spec (w.listAllPages ⟨cfg.SubscriptionId, .defaultAzure⟩) []
      ⟨[.logPrintf ("yamlString: " ++ y),
        .getenv "AZURE_CLIENT_SECRET" (w.getenv "AZURE_CLIENT_SECRET"),
        .newDefaultAzureCredential none,
        .newVirtualMachinesClient cfg.SubscriptionId .defaultAzure none], 0, 0⟩
      with ⟨oks, -, hloop⟩ | ⟨oks, e1, rest, -, hloop⟩
    · rw [hloop] at hrun
      rw [hrun] at he
      simp only [mem_fetchedPages] at he
      simp at he
    · rw [hloop] at hrun
      rw [hrun] at he ⊢
      simp only [mem_fetchedPages] at he
      simp at he
      simp [he]

theorem Evaluate_page_error_witness :
    Event.nextPage (.ok [⟨"a", []⟩]) ∈ (Evaluate failingPageWorld inventoryInput .init).2.trace ∧
    Event.nextPage (.error "timeout") ∈
      (Evaluate failingPageWorld inventoryInput .init).2.trace ∧
    (Evaluate failingPageWorld inventoryInput .init).1 =
      .error "failed to get next page of VMs: timeout" :=
  ⟨by decide, by decide,
    Evaluate_page_error failingPageWorld inventoryInput "timeout" (by decide)⟩

/-- Claim C7.  A successful inventory fetched every page the provider yields, and
its Subjects are, in page order, one per listed machine identifier: as many as
identifiers were listed, the i-th with the i-th identifier as `Id`, with
`Props["id"]` equal to its `Id`, of type `INVENTORY_ITEM`, and titled
"Azure Virtual Machine " followed by the identifier. -/
theorem Evaluate_subjects (w : World) (input : EvaluateInput) (r : EvaluateResult)
    (s : RunState) (hrun : Evaluate w input .init = (.ok r, s)) :
    (∃ vmClient, fetchedPages s.trace = w.listAllPages vmClient) ∧
    r.Subjects.length = (listedIds s.trace).length ∧
    ∀ (i : Nat) (sub : Subject), r.Subjects[i]? = some sub →
      (listedIds s.trace)[i]? = some sub.Id ∧
      sub.Props.lookup "id" = some sub.Id ∧
      sub.Type_ = .INVENTORY_ITEM ∧
      sub.Title = "Azure Virtual Machine " ++ sub.Id := by
  obtain ⟨hall, hsub⟩ := Evaluate_ok_inv hrun
  refine ⟨hall, by simp [hsub], ?_⟩
  intro i sub hi
  rw [hsub, List.getElem?_map] at hi
  cases hid : (listedIds s.trace)[i]? with
  | none => simp [hid] at hi
  | some vmId =>
    simp only [hid, Option.map_some', Option.some.injEq] at hi
    subst hi
    simp [subjectOf, List.lookup]

theorem Evaluate_subjects_witness :
    ∃ r s, Evaluate demoWorld inventoryInput .init = (.ok r, s) ∧
      listedIds s.trace = ["a", "b", "c"] ∧
      r.Subjects.length = (listedIds s.trace).length :=
  ⟨_, _, rfl, by decide, (Evaluate_subjects demoWorld inventoryInput _ _ rfl).2.1⟩

/-- Claim C8 as stated fails.  The inventory does not de-duplicate: with a
configuration that passes the validation, when the provider lists an
identifier on two pages, the run succeeds and returns two Subjects with that
`Id`. -/
theorem Evaluate_duplicate_subjects :
    inventoryInput.Configuration.lookup "yaml" =
      some "subscriptionid: sub\nclientid: client\ntenantid: tenant" ∧
    duplicateWorld.yamlUnmarshal "subscriptionid: sub\nclientid: client\ntenantid: tenant" =
      .ok ⟨"sub", "client", "tenant"⟩ ∧
    duplicateWorld.getenv "AZURE_CLIENT_SECRET" = "secret" ∧
    duplicateWorld.listAllPages ⟨"sub", .defaultAzure⟩ = [.ok [⟨"a", []⟩], .ok [⟨"a", []⟩]] ∧
    ∃ r s, Evaluate duplicateWorld inventoryInput .init = (.ok r, s) ∧
      r.Subjects =
        [⟨"a", .INVENTORY_ITEM, "Azure Virtual Machine a", [("id", "a")]⟩,
         ⟨"a", .INVENTORY_ITEM, "Azure Virtual Machine a", [("id", "a")]⟩] ∧
      ¬ (r.Subjects.map (·.Id)).Nodup :=
  ⟨by decide, by rfl, by decide, by rfl, _, _, rfl, by rfl, by decide⟩

/-- Claim C8, amended.  The `Id`s of the Subjects of a successful inventory are
the machine identifiers of all the pages the provider yields for the client of
the decoded subscription id, in page order and with their multiplicities; so
no two Subjects have the same `Id` exactly when the provider listed no
identifier twice. -/
theorem Evaluate_subjects_nodup (w : World) (input : EvaluateInput) (y : String)
    (cfg : AzureCliConfig) (r : EvaluateResult) (s : RunState)
    (hy : input.Configuration.lookup "yaml" = some y)
    (hc : w.yamlUnmarshal y = .ok cfg)
    (hrun : Evaluate w input .init = (.ok r, s)) :
    r.Subjects.map (·.Id) =
      ((w.listAllPages ⟨cfg.SubscriptionId, .defaultAzure⟩).map pageIds).flatten ∧
    ((r.Subjects.map (·.Id)).Nodup ↔
      ((w.listAllPages ⟨cfg.SubscriptionId, .defaultAzure⟩).map pageIds).flatten.Nodup) := by
  obtain ⟨y1, cfg1, hy1, hc1, hf, hsub⟩ := Evaluate_ok_pages hrun
  rw [hy] at hy1
  cases hy1
  rw [hc] at hc1
  cases hc1
  have hids : r.Subjects.map (·.Id) =
      ((w.listAllPages ⟨cfg.SubscriptionId, .defaultAzure⟩).map pageIds).flatten := by
    rw [hsub, List.map_map, ← hf]
    exact List.map_id _
  exact ⟨hids, by rw [hids]⟩

theorem Evaluate_subjects_nodup_witness :
    inventoryInput.Configuration.lookup "yaml" =
      some "subscriptionid: sub\nclientid: client\ntenantid: tenant" ∧
    demoWorld.yamlUnmarshal "subscriptionid: sub\nclientid: client\ntenantid: tenant" =
      .ok ⟨"sub", "client", "tenant"⟩ ∧
    ∃ r s, Evaluate demoWorld inventoryInput .init = (.ok r, s) ∧
      r.Subjects.map (·.Id) = ["a", "b", "c"] ∧
      (r.Subjects.map (·.Id)).Nodup :=
  ⟨by decide, by rfl, _, _, rfl,
    (Evaluate_subjects_nodup demoWorld inventoryInput
      "subscriptionid: sub\nclientid: client\ntenantid: tenant"
      ⟨"sub", "client", "tenant"⟩ _ _ (by decide) (by rfl) rfl).1.trans (by rfl),
    (Evaluate_subjects_nodup demoWorld inventoryInput
      "subscriptionid: sub\nclientid: client\ntenantid: tenant"
      ⟨"sub", "client", "tenant"⟩ _ _ (by decide) (by rfl) rfl).2.2 (by decide)⟩

/-- Claim C6, where the code diverges.  With an empty subscription id and the other three
values present, the inventory resolves the default credential, creates the VM
client with the empty subscription id and requests the first page; the guard
that reports a missing subscription id tests the flag of the `yaml` lookup,
which is true at that point. -/
theorem Evaluate_empty_subscription_id :
    emptySubscriptionWorld.yamlUnmarshal "clientid: client\ntenantid: tenant" =
      .ok ⟨"", "client", "tenant"⟩ ∧
    (Evaluate emptySubscriptionWorld noSubscriptionInput .init).2.trace =
      [.logPrintf "yamlString: clientid: client\ntenantid: tenant",
       .getenv "AZURE_CLIENT_SECRET" "secret",
       .newDefaultAzureCredential none,
       .newVirtualMachinesClient "" .defaultAzure none,
       .nextPage (.error "parameter client.subscriptionID cannot be empty")] ∧
    (Evaluate emptySubscriptionWorld noSubscriptionInput .init).1 =
      .error
        "failed to get next page of VMs: parameter client.subscriptionID cannot be empty" := by
  refine ⟨by rfl, by decide, by rfl⟩

end AzurePlugin
